import Mathlib

/-!
Verification of the repository status lifecycle and dependency-triggered
indexing orchestrator of the syncrup server.

Part 1 embeds `src/services/ExternalAIService.ts`: the validation
predicates `isValidUUID` and `isValidGitUrl`, and the retry loop of
`sendRepositoryToAI`.  The network is modelled as a function from the
attempt number (1-based) to the result of that attempt, so each possible
schedule of network outcomes is one concrete argument.

Part 2 embeds the `ProjectController` operations of the controller file
(`addRepo`, `createDependency`, `deleteDependency`, `getGraph`) over an
explicit store state.  The store collaborator `ProjectService` is not part
of the given sources, so its operations are modelled from the spec (each
such definition is marked).
-/

namespace SyncrupServer

/-- Hexadecimal digit test for the character class `[0-9a-f]` with the
case-insensitive flag, as used by the UUID regex in
`ExternalAIService.isValidUUID`. -/
def isHexDigit (c : Char) : Bool :=
  decide ((48 ≤ c.toNat ∧ c.toNat ≤ 57) ∨ (97 ≤ c.toNat ∧ c.toNat ≤ 102) ∨
    (65 ≤ c.toNat ∧ c.toNat ≤ 70))

/-- `ExternalAIService.isValidUUID`: the string matches
`^[0-9a-f]{8}-[0-9a-f]{4}-[0-9a-f]{4}-[0-9a-f]{4}-[0-9a-f]{12}$` with the
case-insensitive flag: 36 characters, dashes at positions 8, 13, 18, 23,
hexadecimal digits everywhere else. -/
def isValidUUID (uuid : String) : Bool :=
  let cs := uuid.toList
  cs.length == 36 &&
    (List.range 36).all (fun i =>
      if i = 8 ∨ i = 13 ∨ i = 18 ∨ i = 23 then cs.getD i ' ' == '-'
      else isHexDigit (cs.getD i ' '))

/-- `String.prototype.startsWith`, modelled on the character list. -/
def strStartsWith (s p : String) : Bool :=
  List.isPrefixOf p.toList s.toList

/-- `ExternalAIService.isValidGitUrl`: accepts `http://`, `https://`,
`git@`, absolute POSIX paths, or Windows drive paths `^[a-zA-Z]:\\`. -/
def isValidGitUrl (url : String) : Bool :=
  strStartsWith url "http://" ||
  strStartsWith url "https://" ||
  strStartsWith url "git@" ||
  strStartsWith url "/" ||
  (match url.toList with
   | c :: d :: e :: _ => c.isAlpha && d == ':' && e == '\\'
   | _ => false)

/-- Result of one network attempt of the axios POST in
`sendRepositoryToAI`: the promise resolves with a status, or rejects with
an HTTP error status (`error.response.status`), a connection refusal, a
timeout, or some other error. -/
inductive NetResult where
  | resolved (status : Nat)
  | httpError (status : Nat)
  | connRefused
  | timedOut
  | otherError
deriving DecidableEq

/-- Classification of the return sites of `sendRepositoryToAI`:
`success` (status 200/201), `permanent` (validation failure, unexpected
success status, or 4xx client error: not retried), `exhausted` (all
retries used up). -/
inductive Outcome where
  | success
  | permanent
  | exhausted
deriving DecidableEq

/-- Observable result of a `sendRepositoryToAI` run: the `success` flag it
returns, the classified return site, the number of network attempts
performed, and the list of backoff delays (ms) slept, in order. -/
structure SendResult where
  success : Bool
  outcome : Outcome
  attempts : Nat
  delays : List Nat
deriving DecidableEq

/-- The `for (let attempt = 1; attempt <= maxRetries; attempt++)` loop of
`sendRepositoryToAI`, with `fuel` the number of loop iterations still
permitted (`maxRetries - attempt + 1` at the top-level call) and `delays`
the backoff waits performed so far.  The fuel-exhausted branch is the
`return { success: false, error: 'Max retries exceeded' }` after the loop. -/
def sendLoop (net : Nat → NetResult) (maxRetries : Nat) :
    Nat → Nat → List Nat → SendResult
  | attempt, 0, delays =>
      { success := false, outcome := .exhausted, attempts := attempt - 1,
        delays := delays }
  | attempt, fuel + 1, delays =>
      match net attempt with
      | .resolved status =>
          if status = 200 ∨ status = 201 then
            { success := true, outcome := .success, attempts := attempt,
              delays := delays }
          else
            { success := false, outcome := .permanent, attempts := attempt,
              delays := delays }
      | .httpError statusCode =>
          if 400 ≤ statusCode ∧ statusCode < 500 then
            { success := false, outcome := .permanent, attempts := attempt,
              delays := delays }
          else if attempt = maxRetries then
            { success := false, outcome := .exhausted, attempts := attempt,
              delays := delays }
          else
            sendLoop net maxRetries (attempt + 1) fuel
              (delays ++ [2 ^ (attempt - 1) * 1000])
      | .connRefused =>
          if attempt = maxRetries then
            { success := false, outcome := .exhausted, attempts := attempt,
              delays := delays }
          else
            sendLoop net maxRetries (attempt + 1) fuel
              (delays ++ [2 ^ (attempt - 1) * 1000])
      | .timedOut =>
          if attempt = maxRetries then
            { success := false, outcome := .exhausted, attempts := attempt,
              delays := delays }
          else
            sendLoop net maxRetries (attempt + 1) fuel
              (delays ++ [2 ^ (attempt - 1) * 1000])
      | .otherError =>
          if attempt = maxRetries then
            { success := false, outcome := .exhausted, attempts := attempt,
              delays := delays }
          else
            sendLoop net maxRetries (attempt + 1) fuel
              (delays ++ [2 ^ (attempt - 1) * 1000])

/-- `ExternalAIService.sendRepositoryToAI`: validate locally, then run the
retry loop with `maxRetries = 3` against the given schedule of network
outcomes. -/
def sendRepositoryToAI (projectId repoUrl : String)
    (net : Nat → NetResult) : SendResult :=
  if isValidUUID projectId = false then
    { success := false, outcome := .permanent, attempts := 0, delays := [] }
  else if isValidGitUrl repoUrl = false then
    { success := false, outcome := .permanent, attempts := 0, delays := [] }
  else
    sendLoop net 3 1 3 []

/-- A repository record as held by the store: identifier, owning project,
name, source URL, `type` (compared against the string `"SERVER"` in the
controller) and `status` (one of `"UNTRACKED"`, `"PENDING"`, `"INDEXED"`,
`"FAILED"`). -/
structure Repo where
  id : Nat
  projectId : Nat
  name : String
  url : String
  type : String
  status : String
deriving DecidableEq

/-- The arguments of one call to `sendRepositoryToAI` launched in the
background: `(projectId, url, repoId)` as passed at the call site. -/
structure Sub where
  projectId : Nat
  url : String
  repoId : Nat
deriving DecidableEq

/-- Observable events of one controller operation: store status writes
(`setStatus`), socket emissions (`repoAdded` for `repository:added`,
`repoUpdated` for `repository:updated`), and the start and resolution of
a background indexing submission. -/
inductive Ev where
  | repoAdded (projectId repoId : Nat)
  | setStatus (repoId : Nat) (status : String)
  | repoUpdated (repoId : Nat) (status : String)
  | submitStart (sub : Sub)
  | submitResolve (repoId : Nat) (ok : Bool)
deriving DecidableEq

/-- The mutable store state: the repositories and the directed dependency
edges `(sourceRepoId, targetRepoId)`. -/
structure St where
  repos : List Repo
  deps : List (Nat × Nat)
deriving DecidableEq

/-- Result of the synchronous part of one controller operation: the store
state when the HTTP response is sent, the events emitted so far, and the
background indexing submission launched, if any (each operation launches
at most one). -/
structure OpResult where
  st : St
  trace : List Ev
  pending : Option Sub
deriving DecidableEq

/-- Modelled from the spec: `getRepository` of the Dependency Graph Store
(§4.3), lookup of a repository by id in a list. -/
def findRepoL (l : List Repo) (i : Nat) : Option Repo :=
  l.find? (fun r => r.id == i)

/-- Modelled from the spec: `ProjectService.getRepo`. -/
def findRepo (st : St) (i : Nat) : Option Repo :=
  findRepoL st.repos i

/-- Modelled from the spec: the status-store write performed by
`ProjectService.updateRepoStatus` — rewrite the status of the repository
with the given id, leaving every other attribute and repository alone. -/
def updateL (l : List Repo) (i : Nat) (s : String) : List Repo :=
  l.map (fun r => if r.id = i then { r with status := s } else r)

/-- Modelled from the spec: `ProjectService.updateRepoStatus` on the
whole state. -/
def updateRepoStatus (st : St) (i : Nat) (s : String) : St :=
  { st with repos := updateL st.repos i s }

/-- Modelled from the spec: `incomingDegree` (§4.3) /
`ProjectService.countIncomingDependencies` — the number of edges whose
target is the given repository. -/
def countIncomingDependencies (st : St) (i : Nat) : Nat :=
  (st.deps.filter (fun d => d.2 == i)).length

/-- Modelled from the spec: `ProjectService.addDependency` (§4.3),
idempotent on duplicate edges — re-adding an existing edge is a no-op and
parallel edges are never created. -/
def addDependencyStore (st : St) (s t : Nat) : St :=
  if (s, t) ∈ st.deps then st else { st with deps := (s, t) :: st.deps }

/-- Modelled from the spec: `ProjectService.removeDependency` (§4.3),
removal of the edge `(s, t)`. -/
def removeDependencyStore (st : St) (s t : Nat) : St :=
  { st with deps := st.deps.filter (fun d => d ≠ (s, t)) }

/-- `ProjectController.addRepo`: compute the initial status
(`SERVER → PENDING`, otherwise `UNTRACKED`), persist the repository
(modelled from the spec: the store creates the record with a fresh id and
exactly the given attributes), emit `repository:added`, and launch a
background submission carrying the repository's own URL only when the
type is `SERVER`.  Returns the created repository and the operation
result. -/
def addRepoOp (st : St) (pid newId : Nat) (name url ty : String) :
    Repo × OpResult :=
  let initialStatus := if ty = "SERVER" then "PENDING" else "UNTRACKED"
  let repo : Repo :=
    { id := newId, projectId := pid, name := name, url := url, type := ty,
      status := initialStatus }
  let st1 : St := { st with repos := st.repos ++ [repo] }
  if ty = "SERVER" then
    (repo, { st := st1, trace := [Ev.repoAdded pid newId],
             pending := some { projectId := pid, url := url, repoId := newId } })
  else
    (repo, { st := st1, trace := [Ev.repoAdded pid newId], pending := none })

/-- `ProjectController.createDependency`: add the edge, fetch the target,
and when the target exists with status `UNTRACKED`, set it to `PENDING`,
emit `repository:updated`, and launch a background submission with the
target's own project, URL and id; otherwise change nothing further. -/
def createDependencyOp (st : St) (sourceRepoId targetRepoId : Nat) :
    OpResult :=
  let st1 := addDependencyStore st sourceRepoId targetRepoId
  match findRepo st1 targetRepoId with
  | some targetRepo =>
      if targetRepo.status = "UNTRACKED" then
        let st2 := updateRepoStatus st1 targetRepo.id "PENDING"
        { st := st2,
          trace := [Ev.setStatus targetRepo.id "PENDING",
                    Ev.repoUpdated targetRepo.id "PENDING"],
          pending := some { projectId := targetRepo.projectId,
                            url := targetRepo.url, repoId := targetRepo.id } }
      else
        { st := st1, trace := [], pending := none }
  | none => { st := st1, trace := [], pending := none }

/-- `ProjectController.deleteDependency`: remove the edge, count the
remaining incoming edges of the target, and when the count is zero and
the target exists and is not a `SERVER`, revert it to `UNTRACKED` and
emit `repository:updated`; otherwise leave every status unchanged. -/
def deleteDependencyOp (st : St) (sourceRepoId targetRepoId : Nat) :
    OpResult :=
  let st1 := removeDependencyStore st sourceRepoId targetRepoId
  if countIncomingDependencies st1 targetRepoId = 0 then
    match findRepo st1 targetRepoId with
    | some targetRepo =>
        if targetRepo.type = "SERVER" then
          { st := st1, trace := [], pending := none }
        else
          { st := updateRepoStatus st1 targetRepo.id "UNTRACKED",
            trace := [Ev.setStatus targetRepo.id "UNTRACKED",
                      Ev.repoUpdated targetRepo.id "UNTRACKED"],
            pending := none }
    | none => { st := st1, trace := [], pending := none }
  else
    { st := st1, trace := [], pending := none }

/-- The `.then`/`.catch` continuation chained after a background
`sendRepositoryToAI` call in `addRepo` and `createDependency`: set the
repository's status to `INDEXED` on success and `FAILED` otherwise, and
emit `repository:updated`. -/
def applyOutcome (st : St) (repoId : Nat) (ok : Bool) : St × List Ev :=
  let term := if ok then "INDEXED" else "FAILED"
  (updateRepoStatus st repoId term,
   [Ev.setStatus repoId term, Ev.repoUpdated repoId term])

/-- One whole triggering event, async continuation included: run the
synchronous part, then, if a submission was launched, let it start,
resolve with the given outcome, and apply its continuation.  The second
component is the full event trace of the triggering event. -/
def runEvent (r : OpResult) (ok : Bool) : St × List Ev :=
  match r.pending with
  | none => (r.st, r.trace)
  | some sub =>
      let cont := applyOutcome r.st sub.repoId ok
      (cont.1,
       r.trace ++ [Ev.submitStart sub, Ev.submitResolve sub.repoId ok] ++
         cont.2)

/-- The empty initial state: no repositories, no edges. -/
def init : St := { repos := [], deps := [] }

/-- A concrete `UNTRACKED` WEB repository used to instantiate theorems. -/
def repoWebUntracked : Repo :=
  { id := 1, projectId := 10, name := "web", url := "https://w.git",
    type := "WEB", status := "UNTRACKED" }

/-- A concrete state holding only `repoWebUntracked`. -/
def stWebUntracked : St := { repos := [repoWebUntracked], deps := [] }

/-- A concrete `INDEXED` WEB repository used to instantiate theorems. -/
def repoWebIndexed : Repo :=
  { id := 1, projectId := 10, name := "web", url := "https://w.git",
    type := "WEB", status := "INDEXED" }

/-- A concrete state holding `repoWebIndexed` with one incoming edge. -/
def stWebIndexed : St := { repos := [repoWebIndexed], deps := [(2, 1)] }

/-- One orchestrator operation as a state transition: repository creation
(the store assigns a fresh identifier, hence the freshness hypothesis,
modelled from the spec), dependency addition, dependency removal, and
application of an indexing outcome. -/
inductive Step : St → St → Prop where
  | create (st : St) (pid newId : Nat) (name url ty : String)
      (hfresh : findRepo st newId = none) :
      Step st (addRepoOp st pid newId name url ty).2.st
  | addDep (st : St) (s t : Nat) :
      Step st (createDependencyOp st s t).st
  | delDep (st : St) (s t : Nat) :
      Step st (deleteDependencyOp st s t).st
  | outcome (st : St) (repoId : Nat) (ok : Bool) :
      Step st (applyOutcome st repoId ok).1

/-- The graph payload `{ nodes: [...], edges: [...] }` returned by the
external graph endpoint; the element payloads are opaque to this layer. -/
structure GraphData where
  nodes : List String
  edges : List String
deriving DecidableEq

/-- Outcome of the outbound `fetch` in `ProjectController.getGraph`: the
response is OK and its body parses, the response is not OK
(`response.ok` false, which the code turns into a thrown error), the body
fails to parse (`response.json()` rejects), or the fetch itself rejects
with a network error. -/
inductive GraphFetch where
  | ok (data : GraphData)
  | httpNotOk (status : Nat)
  | parseFail
  | networkError
deriving DecidableEq

/-- The HTTP reply of `getGraph` as observed by the requester. -/
inductive HttpReply where
  | badRequest (msg : String)
  | jsonReply (g : GraphData)
deriving DecidableEq

/-- `ProjectController.getGraph`: reject a missing or empty `projectId`
with a 400; otherwise forward the parsed body on success and substitute
the empty graph on any failure of the outbound fetch (the inner
`try`/`catch` swallows the thrown non-OK error, the parse error and the
network error alike). -/
def getGraph (projectId : Option String) (fetched : GraphFetch) : HttpReply :=
  match projectId with
  | none => .badRequest "projectId is required"
  | some pid =>
      if pid = "" then .badRequest "projectId is required"
      else
        match fetched with
        | .ok data => .jsonReply data
        | .httpNotOk _ => .jsonReply { nodes := [], edges := [] }
        | .parseFail => .jsonReply { nodes := [], edges := [] }
        | .networkError => .jsonReply { nodes := [], edges := [] }

/-- The §3 invariant as a decidable check: no repository of type
`"SERVER"` has status `"UNTRACKED"`. -/
def serverNeverUntracked (st : St) : Bool :=
  st.repos.all (fun r => !(r.type == "SERVER" && r.status == "UNTRACKED"))

/-- Auxiliary invariant carried through the induction: repository ids are
pairwise distinct (the store assigns fresh ids) and no `SERVER`
repository is `UNTRACKED`. -/
def Inv (st : St) : Prop :=
  (st.repos.map Repo.id).Nodup ∧ serverNeverUntracked st = true

/-- A repository found by id has that id. -/
theorem findRepoL_id {l : List Repo} {i : Nat} {r : Repo}
    (h : findRepoL l i = some r) : r.id = i := by
  have := List.find?_some h
  simpa using this

/-- A repository found by id is a member of the list. -/
theorem findRepoL_mem {l : List Repo} {i : Nat} {r : Repo}
    (h : findRepoL l i = some r) : r ∈ l :=
  List.mem_of_find?_eq_some h

/-- Looking up the updated id after a status write returns the previously
found repository with its status rewritten. -/
theorem findRepoL_updateL (l : List Repo) (i : Nat) (s : String) :
    findRepoL (updateL l i s) i =
      (findRepoL l i).map (fun r => { r with status := s }) := by
  induction l with
  | nil => rfl
  | cons a l ih =>
      by_cases h : a.id = i
      · simp [findRepoL, updateL, List.find?_cons_of_pos, h]
      · simp only [findRepoL, updateL, List.map_cons] at ih ⊢
        rw [if_neg h, List.find?_cons_of_neg _ (by simpa using h),
          List.find?_cons_of_neg _ (by simpa using h)]
        exact ih

/-- Members of an updated list: each comes from an original member,
either untouched or with exactly its status rewritten. -/
theorem mem_updateL {l : List Repo} {i : Nat} {s : String} {x : Repo}
    (hx : x ∈ updateL l i s) :
    ∃ a, a ∈ l ∧
      ((a.id ≠ i ∧ x = a) ∨ (a.id = i ∧ x = { a with status := s })) := by
  simp only [updateL, List.mem_map] at hx
  obtain ⟨a, ha, rfl⟩ := hx
  refine ⟨a, ha, ?_⟩
  by_cases h : a.id = i
  · right; exact ⟨h, by rw [if_pos h]⟩
  · left; exact ⟨h, by rw [if_neg h]⟩

/-- A status write never changes the list of repository ids. -/
theorem map_id_updateL (l : List Repo) (i : Nat) (s : String) :
    (updateL l i s).map Repo.id = l.map Repo.id := by
  simp only [updateL, List.map_map]
  refine List.map_congr_left ?_
  intro a _
  by_cases h : a.id = i
  · simp [h]
  · simp [h]

/-- Adding a dependency edge leaves the repositories untouched. -/
theorem addDependencyStore_repos (st : St) (s t : Nat) :
    (addDependencyStore st s t).repos = st.repos := by
  unfold addDependencyStore
  split <;> rfl

/-- Removing a dependency edge leaves the repositories untouched. -/
theorem removeDependencyStore_repos (st : St) (s t : Nat) :
    (removeDependencyStore st s t).repos = st.repos := rfl

/-- The store state after `addRepoOp`: the new record appended, with the
initial status decided by the type. -/
theorem addRepoOp_st (st : St) (pid newId : Nat) (name url ty : String) :
    (addRepoOp st pid newId name url ty).2.st =
      { st with repos := st.repos ++
        [{ id := newId, projectId := pid, name := name, url := url,
           type := ty,
           status := if ty = "SERVER" then "PENDING" else "UNTRACKED" }] } := by
  by_cases h : ty = "SERVER" <;> simp [addRepoOp, h]

/-- The Boolean invariant check, spelled out as a quantified property. -/
theorem serverNeverUntracked_iff (st : St) :
    serverNeverUntracked st = true ↔
      ∀ r ∈ st.repos, r.type = "SERVER" → r.status ≠ "UNTRACKED" := by
  simp only [serverNeverUntracked, List.all_eq_true, Bool.not_eq_true',
    Bool.and_eq_false_imp, beq_iff_eq, beq_eq_false_iff_ne]

/-- The invariant only looks at the repositories. -/
theorem Inv_repos {st st' : St} (h : st'.repos = st.repos) (hinv : Inv st) :
    Inv st' := by
  obtain ⟨h1, h2⟩ := hinv
  refine ⟨by rw [h]; exact h1, ?_⟩
  unfold serverNeverUntracked at h2 ⊢
  rw [h]; exact h2

/-- A status write to anything other than `"UNTRACKED"` preserves the
invariant. -/
theorem Inv_update_not_untracked (st : St) (i : Nat) (s : String)
    (hs : s ≠ "UNTRACKED") (hinv : Inv st) :
    Inv (updateRepoStatus st i s) := by
  obtain ⟨hnd, hsrv⟩ := hinv
  rw [serverNeverUntracked_iff] at hsrv
  refine ⟨?_, ?_⟩
  · show ((updateL st.repos i s).map Repo.id).Nodup
    rw [map_id_updateL]; exact hnd
  · rw [serverNeverUntracked_iff]
    intro x hx hxty
    obtain ⟨a, ha, hcase⟩ := mem_updateL hx
    rcases hcase with ⟨_, rfl⟩ | ⟨_, rfl⟩
    · exact hsrv _ ha hxty
    · simpa using hs

/-- A reversion to `"UNTRACKED"` preserves the invariant when the
repository found at the written id is not a `SERVER`. -/
theorem Inv_update_untracked (st : St) (i : Nat) (tr : Repo)
    (hfind : findRepo st i = some tr) (hty : tr.type ≠ "SERVER")
    (hinv : Inv st) :
    Inv (updateRepoStatus st i "UNTRACKED") := by
  obtain ⟨hnd, hsrv⟩ := hinv
  rw [serverNeverUntracked_iff] at hsrv
  refine ⟨?_, ?_⟩
  · show ((updateL st.repos i "UNTRACKED").map Repo.id).Nodup
    rw [map_id_updateL]; exact hnd
  · rw [serverNeverUntracked_iff]
    intro x hx hxty
    obtain ⟨a, ha, hcase⟩ := mem_updateL hx
    rcases hcase with ⟨_, rfl⟩ | ⟨hai, rfl⟩
    · exact hsrv _ ha hxty
    · exfalso
      have htid : tr.id = i := findRepoL_id hfind
      have htm : tr ∈ st.repos := findRepoL_mem hfind
      have hatr : a = tr :=
        List.inj_on_of_nodup_map hnd ha htm (by rw [hai, htid])
      apply hty
      rw [← hatr]
      simpa using hxty

/-- Repository creation preserves the invariant: the created record is
`PENDING` when its type is `SERVER`, and its id is fresh. -/
theorem Inv_create (st : St) (pid newId : Nat) (name url ty : String)
    (hfresh : findRepo st newId = none) (hinv : Inv st) :
    Inv (addRepoOp st pid newId name url ty).2.st := by
  obtain ⟨hnd, hsrv⟩ := hinv
  rw [serverNeverUntracked_iff] at hsrv
  rw [addRepoOp_st]
  constructor
  · simp only [List.map_append, List.map_cons, List.map_nil]
    rw [List.nodup_append]
    refine ⟨hnd, List.nodup_singleton _, ?_⟩
    intro a ha hb
    simp only [List.mem_singleton] at hb
    subst hb
    rw [findRepo, findRepoL, List.find?_eq_none] at hfresh
    obtain ⟨r, hr, hrid⟩ := List.mem_map.1 ha
    exact hfresh r hr (by simpa using hrid)
  · rw [serverNeverUntracked_iff]
    intro r hr hty
    rcases List.mem_append.1 hr with h | h
    · exact hsrv r h hty
    · simp only [List.mem_singleton] at h
      subst h
      simp only at hty ⊢
      subst hty
      rw [if_pos rfl]
      decide

/-- Dependency addition preserves the invariant: it only ever writes the
status `"PENDING"`. -/
theorem Inv_addDep (st : St) (s t : Nat) (hinv : Inv st) :
    Inv (createDependencyOp st s t).st := by
  have h1 : Inv (addDependencyStore st s t) :=
    Inv_repos (addDependencyStore_repos st s t) hinv
  unfold createDependencyOp
  dsimp only
  split
  · split
    · exact Inv_update_not_untracked _ _ _ (by decide) h1
    · exact h1
  · exact h1

/-- Dependency removal preserves the invariant: it reverts to
`"UNTRACKED"` only a repository it found to be a non-`SERVER`. -/
theorem Inv_delDep (st : St) (s t : Nat) (hinv : Inv st) :
    Inv (deleteDependencyOp st s t).st := by
  have h1 : Inv (removeDependencyStore st s t) :=
    Inv_repos (removeDependencyStore_repos st s t) hinv
  unfold deleteDependencyOp
  dsimp only
  split
  · split
    · rename_i targetRepo hfind
      split
      · exact h1
      · rename_i hns
        have htid : targetRepo.id = t := findRepoL_id hfind
        exact Inv_update_untracked _ _ targetRepo (by rw [htid]; exact hfind)
          hns h1
    · exact h1
  · exact h1

/-- Applying an indexing outcome preserves the invariant: it only ever
writes `"INDEXED"` or `"FAILED"`. -/
theorem Inv_outcome (st : St) (repoId : Nat) (ok : Bool) (hinv : Inv st) :
    Inv (applyOutcome st repoId ok).1 :=
  Inv_update_not_untracked _ _ _ (by cases ok <;> decide) hinv

/-- Every single orchestrator step preserves the invariant. -/
theorem Inv_step {st st' : St} (h : Step st st') (hinv : Inv st) : Inv st' := by
  cases h with
  | create pid newId name url ty hfresh =>
      exact Inv_create st pid newId name url ty hfresh hinv
  | addDep s t => exact Inv_addDep st s t hinv
  | delDep s t => exact Inv_delDep st s t hinv
  | outcome repoId ok => exact Inv_outcome st repoId ok hinv

/-- Every state reachable from the empty state satisfies the auxiliary
invariant. -/
theorem Inv_reachable (st : St) (h : Relation.ReflTransGen Step init st) :
    Inv st := by
  induction h with
  | refl => exact ⟨by simp [init], by decide⟩
  | tail _ hstep ih => exact Inv_step hstep ih

/-- A retried attempt: an HTTP 5xx below the retry cap advances the loop
by one attempt and appends the backoff delay `2 ^ (attempt - 1) * 1000`
milliseconds. -/
theorem sendLoop_step_5xx (net : Nat → NetResult) (m attempt fuel : Nat)
    (ds : List Nat) (s : Nat) (hnet : net attempt = .httpError s)
    (h5 : 500 ≤ s) (hlast : attempt ≠ m) :
    sendLoop net m attempt (fuel + 1) ds =
      sendLoop net m (attempt + 1) fuel (ds ++ [2 ^ (attempt - 1) * 1000]) := by
  rw [sendLoop]
  simp only [hnet]
  rw [if_neg (by omega), if_neg hlast]

/-- A resolved attempt with status 200 returns success at once. -/
theorem sendLoop_step_200 (net : Nat → NetResult) (m attempt fuel : Nat)
    (ds : List Nat) (hnet : net attempt = .resolved 200) :
    sendLoop net m attempt (fuel + 1) ds =
      { success := true, outcome := .success, attempts := attempt,
        delays := ds } := by
  rw [sendLoop]
  simp [hnet]

/-- An HTTP 4xx returns a permanent failure at once, with no retry. -/
theorem sendLoop_step_4xx (net : Nat → NetResult) (m attempt fuel : Nat)
    (ds : List Nat) (s : Nat) (hnet : net attempt = .httpError s)
    (ha : 400 ≤ s) (hb : s < 500) :
    sendLoop net m attempt (fuel + 1) ds =
      { success := false, outcome := .permanent, attempts := attempt,
        delays := ds } := by
  rw [sendLoop]
  simp only [hnet]
  rw [if_pos ⟨ha, hb⟩]

/-- Resource bound of the retry loop: with the loop entered at `attempt`
and `fuel` iterations left such that `attempt + fuel = m + 1`, at most
`m` attempts are counted and at most `fuel - 1` delays are appended. -/
theorem sendLoop_bounds (net : Nat → NetResult) (m fuel : Nat) :
    ∀ attempt ds, attempt + fuel = m + 1 →
      (sendLoop net m attempt fuel ds).attempts ≤ m ∧
      (sendLoop net m attempt fuel ds).delays.length ≤
        ds.length + (fuel - 1) := by
  induction fuel with
  | zero =>
      intro attempt ds h
      rw [sendLoop]
      exact ⟨by simp; omega, by simp⟩
  | succ fuel ih =>
      intro attempt ds h
      rw [sendLoop]
      cases hnet : net attempt with
      | resolved status =>
          simp only [hnet]
          split <;> exact ⟨by simp; omega, by simp⟩
      | httpError s =>
          simp only [hnet]
          split
          · exact ⟨by simp; omega, by simp⟩
          · split
            · exact ⟨by simp; omega, by simp⟩
            · rename_i hlast
              have hrec := ih (attempt + 1)
                (ds ++ [2 ^ (attempt - 1) * 1000]) (by omega)
              refine ⟨hrec.1, ?_⟩
              have h2 := hrec.2
              simp only [List.length_append, List.length_cons,
                List.length_nil] at h2 ⊢
              omega
      | connRefused =>
          simp only [hnet]
          split
          · exact ⟨by simp; omega, by simp⟩
          · rename_i hlast
            have hrec := ih (attempt + 1)
              (ds ++ [2 ^ (attempt - 1) * 1000]) (by omega)
            refine ⟨hrec.1, ?_⟩
            have h2 := hrec.2
            simp only [List.length_append, List.length_cons,
              List.length_nil] at h2 ⊢
            omega
      | timedOut =>
          simp only [hnet]
          split
          · exact ⟨by simp; omega, by simp⟩
          · rename_i hlast
            have hrec := ih (attempt + 1)
              (ds ++ [2 ^ (attempt - 1) * 1000]) (by omega)
            refine ⟨hrec.1, ?_⟩
            have h2 := hrec.2
            simp only [List.length_append, List.length_cons,
              List.length_nil] at h2 ⊢
            omega
      | otherError =>
          simp only [hnet]
          split
          · exact ⟨by simp; omega, by simp⟩
          · rename_i hlast
            have hrec := ih (attempt + 1)
              (ds ++ [2 ^ (attempt - 1) * 1000]) (by omega)
            refine ⟨hrec.1, ?_⟩
            have h2 := hrec.2
            simp only [List.length_append, List.length_cons,
              List.length_nil] at h2 ⊢
            omega

/-- C5: for every submission whose network attempts yield an HTTP 5xx
error on tries 1 and 2 and HTTP 200 on try 3, `sendRepositoryToAI`
returns success after exactly 3 network attempts and exactly 2 backoff
waits of `2 ^ (attempt - 1)` seconds: 1000 ms before try 2 and 2000 ms
before try 3. -/
theorem sendRepositoryToAI_retry_law (projectId repoUrl : String)
    (net : Nat → NetResult) (s1 s2 : Nat)
    (hpid : isValidUUID projectId = true)
    (hurl : isValidGitUrl repoUrl = true)
    (h1 : net 1 = .httpError s1) (h1a : 500 ≤ s1) (h1b : s1 ≤ 599)
    (h2 : net 2 = .httpError s2) (h2a : 500 ≤ s2) (h2b : s2 ≤ 599)
    (h3 : net 3 = .resolved 200) :
    sendRepositoryToAI projectId repoUrl net =
      { success := true, outcome := .success, attempts := 3,
        delays := [1000, 2000] } := by
  unfold sendRepositoryToAI
  rw [hpid, hurl, if_neg (by simp), if_neg (by simp)]
  have e1 : sendLoop net 3 1 (2 + 1) [] = sendLoop net 3 2 (1 + 1) [1000] := by
    rw [sendLoop_step_5xx net 3 1 2 [] s1 h1 h1a (by omega)]
    norm_num
  have e2 : sendLoop net 3 2 (1 + 1) [1000] =
      sendLoop net 3 3 (0 + 1) [1000, 2000] := by
    rw [sendLoop_step_5xx net 3 2 1 [1000] s2 h2 h2a (by omega)]
    norm_num
  have e3 : sendLoop net 3 3 (0 + 1) [1000, 2000] =
      { success := true, outcome := .success, attempts := 3,
        delays := [1000, 2000] } :=
    sendLoop_step_200 net 3 3 0 [1000, 2000] h3
  calc sendLoop net 3 1 3 []
      = sendLoop net 3 2 (1 + 1) [1000] := e1
    _ = sendLoop net 3 3 (0 + 1) [1000, 2000] := e2
    _ = _ := e3

/-- Witness for C5: a 503 on tries 1 and 2 and a 200 on try 3 yields
success with 3 attempts and delays of 1000 ms and 2000 ms. -/
theorem sendRepositoryToAI_retry_law_witness :
    sendRepositoryToAI "0f8fad5b-d9cb-469f-a165-70867728950e"
      "https://github.com/a/b.git"
      (fun n => if n = 1 then .httpError 503
        else if n = 2 then .httpError 503 else .resolved 200) =
      { success := true, outcome := .success, attempts := 3,
        delays := [1000, 2000] } :=
  sendRepositoryToAI_retry_law "0f8fad5b-d9cb-469f-a165-70867728950e"
    "https://github.com/a/b.git"
    (fun n => if n = 1 then .httpError 503
      else if n = 2 then .httpError 503 else .resolved 200)
    503 503 (by decide) (by decide) rfl (by omega) (by omega) rfl
    (by omega) (by omega) rfl

/-- C6: for every submission whose first network attempt yields an HTTP
4xx response, `sendRepositoryToAI` returns a permanent failure after
exactly 1 network attempt, with no retry and no backoff wait. -/
theorem sendRepositoryToAI_4xx_short_circuit (projectId repoUrl : String)
    (net : Nat → NetResult) (s : Nat)
    (hpid : isValidUUID projectId = true)
    (hurl : isValidGitUrl repoUrl = true)
    (h1 : net 1 = .httpError s) (ha : 400 ≤ s) (hb : s ≤ 499) :
    sendRepositoryToAI projectId repoUrl net =
      { success := false, outcome := .permanent, attempts := 1,
        delays := [] } := by
  unfold sendRepositoryToAI
  rw [hpid, hurl, if_neg (by simp), if_neg (by simp)]
  exact sendLoop_step_4xx net 3 1 2 [] s h1 ha (by omega)

/-- Witness for C6: a 404 on the first try. -/
theorem sendRepositoryToAI_4xx_short_circuit_witness :
    sendRepositoryToAI "0f8fad5b-d9cb-469f-a165-70867728950e"
      "https://github.com/a/b.git" (fun _ => .httpError 404) =
      { success := false, outcome := .permanent, attempts := 1,
        delays := [] } :=
  sendRepositoryToAI_4xx_short_circuit
    "0f8fad5b-d9cb-469f-a165-70867728950e" "https://github.com/a/b.git"
    (fun _ => .httpError 404) 404 (by decide) (by decide) rfl (by omega)
    (by omega)

/-- C7: whenever the projectId is not in canonical UUID form or the
repoUrl does not begin with an accepted scheme or absolute path,
`sendRepositoryToAI` returns a permanent failure immediately, with zero
network attempts and zero waits. -/
theorem sendRepositoryToAI_invalid_input (projectId repoUrl : String)
    (net : Nat → NetResult)
    (h : isValidUUID projectId = false ∨ isValidGitUrl repoUrl = false) :
    sendRepositoryToAI projectId repoUrl net =
      { success := false, outcome := .permanent, attempts := 0,
        delays := [] } := by
  unfold sendRepositoryToAI
  rcases h with h | h
  · rw [if_pos h]
  · by_cases hp : isValidUUID projectId = false
    · rw [if_pos hp]
    · rw [if_neg hp, if_pos h]

/-- Witness for C7: a malformed projectId is rejected with no attempt. -/
theorem sendRepositoryToAI_invalid_input_witness :
    sendRepositoryToAI "not-a-uuid" "https://github.com/a/b.git"
      (fun _ => .resolved 200) =
      { success := false, outcome := .permanent, attempts := 0,
        delays := [] } :=
  sendRepositoryToAI_invalid_input "not-a-uuid" "https://github.com/a/b.git"
    (fun _ => .resolved 200) (Or.inl (by decide))

/-- C10: for every input and every schedule of network outcomes,
`sendRepositoryToAI` returns a result (the embedding is a total
function) after at most 3 network attempts and at most 2 backoff waits. -/
theorem sendRepositoryToAI_bounded (projectId repoUrl : String)
    (net : Nat → NetResult) :
    (sendRepositoryToAI projectId repoUrl net).attempts ≤ 3 ∧
    (sendRepositoryToAI projectId repoUrl net).delays.length ≤ 2 := by
  unfold sendRepositoryToAI
  split
  · exact ⟨by simp, by simp⟩
  · split
    · exact ⟨by simp, by simp⟩
    · have h := sendLoop_bounds net 3 3 1 [] (by omega)
      simpa using h

/-- C9: for every graph-retrieval request with a (non-empty) projectId,
any failure of the outbound fetch — non-OK HTTP status, network error,
or unparseable body — makes `getGraph` reply with the empty graph
instead of propagating the error. -/
theorem getGraph_empty_on_failure (pid : String) (fetched : GraphFetch)
    (hpid : pid ≠ "") (hfail : ∀ d, fetched ≠ GraphFetch.ok d) :
    getGraph (some pid) fetched =
      .jsonReply { nodes := [], edges := [] } := by
  unfold getGraph
  dsimp only
  rw [if_neg hpid]
  cases fetched with
  | ok d => exact absurd rfl (hfail d)
  | httpNotOk s => rfl
  | parseFail => rfl
  | networkError => rfl

/-- Witness for C9: a network error yields the empty graph. -/
theorem getGraph_empty_on_failure_witness :
    getGraph (some "p1") GraphFetch.networkError =
      HttpReply.jsonReply { nodes := [], edges := [] } :=
  getGraph_empty_on_failure "p1" GraphFetch.networkError (by decide)
    (fun d => by simp)

/-- C1: every repository creation appends exactly the created record to
the store and, when the type is `SERVER`, sets status `PENDING` and
launches exactly one indexing submission carrying the repository's own
URL; when the type is not `SERVER`, it sets status `UNTRACKED` and
launches no submission. -/
theorem addRepoOp_status_and_submission (st : St) (pid newId : Nat)
    (name url ty : String) :
    (addRepoOp st pid newId name url ty).2.st.repos =
      st.repos ++ [(addRepoOp st pid newId name url ty).1] ∧
    (addRepoOp st pid newId name url ty).1.url = url ∧
    (if ty = "SERVER" then
      (addRepoOp st pid newId name url ty).1.status = "PENDING" ∧
      (addRepoOp st pid newId name url ty).2.pending =
        some { projectId := pid, url := url, repoId := newId }
    else
      (addRepoOp st pid newId name url ty).1.status = "UNTRACKED" ∧
      (addRepoOp st pid newId name url ty).2.pending = none) := by
  by_cases h : ty = "SERVER" <;> simp [addRepoOp, h]

/-- C2: a dependency addition whose target is found `UNTRACKED` sets the
target to `PENDING`, broadcasts exactly one update, and launches exactly
one indexing submission for the target; when the target's status is not
`UNTRACKED`, no repository changes, nothing is broadcast and no
submission is launched. -/
theorem createDependencyOp_transitions (st : St) (s t : Nat) (r : Repo)
    (h : findRepo (addDependencyStore st s t) t = some r) :
    if r.status = "UNTRACKED" then
      findRepo (createDependencyOp st s t).st t =
        some { r with status := "PENDING" } ∧
      (createDependencyOp st s t).pending =
        some { projectId := r.projectId, url := r.url, repoId := r.id } ∧
      (createDependencyOp st s t).trace =
        [Ev.setStatus r.id "PENDING", Ev.repoUpdated r.id "PENDING"]
    else
      (createDependencyOp st s t).st.repos = st.repos ∧
      (createDependencyOp st s t).pending = none ∧
      (createDependencyOp st s t).trace = [] := by
  have hrid : r.id = t := findRepoL_id h
  subst hrid
  simp only [createDependencyOp, h]
  by_cases hs : r.status = "UNTRACKED"
  · rw [if_pos hs, if_pos hs]
    refine ⟨?_, rfl, rfl⟩
    show findRepoL
      (updateL (addDependencyStore st s r.id).repos r.id "PENDING") r.id = _
    rw [findRepoL_updateL]
    rw [show findRepoL (addDependencyStore st s r.id).repos r.id = some r
      from h]
    rfl
  · rw [if_neg hs, if_neg hs]
    exact ⟨addDependencyStore_repos st s r.id, rfl, rfl⟩

/-- Witness for C2: connecting a server to an `UNTRACKED` WEB repository
turns it `PENDING` and launches one submission with its own URL. -/
theorem createDependencyOp_transitions_witness :
    findRepo (createDependencyOp stWebUntracked 2 1).st 1 =
      some { repoWebUntracked with status := "PENDING" } ∧
    (createDependencyOp stWebUntracked 2 1).pending =
      some { projectId := 10, url := "https://w.git", repoId := 1 } ∧
    (createDependencyOp stWebUntracked 2 1).trace =
      [Ev.setStatus 1 "PENDING", Ev.repoUpdated 1 "PENDING"] := by
  have h := createDependencyOp_transitions stWebUntracked 2 1
    repoWebUntracked rfl
  rw [if_pos (show repoWebUntracked.status = "UNTRACKED" from rfl)] at h
  exact h

/-- C3: a dependency removal that leaves a found non-`SERVER` target with
zero incoming edges reverts it to `UNTRACKED` and broadcasts an update;
when edges remain or the target is a `SERVER`, no repository status
changes. -/
theorem deleteDependencyOp_orphan (st : St) (s t : Nat) (r : Repo)
    (h : findRepo (removeDependencyStore st s t) t = some r) :
    if countIncomingDependencies (removeDependencyStore st s t) t = 0 ∧
        r.type ≠ "SERVER" then
      findRepo (deleteDependencyOp st s t).st t =
        some { r with status := "UNTRACKED" } ∧
      (deleteDependencyOp st s t).trace =
        [Ev.setStatus r.id "UNTRACKED", Ev.repoUpdated r.id "UNTRACKED"]
    else
      (deleteDependencyOp st s t).st.repos = st.repos ∧
      (deleteDependencyOp st s t).trace = [] := by
  have hrid : r.id = t := findRepoL_id h
  subst hrid
  simp only [deleteDependencyOp, h]
  by_cases hc :
      countIncomingDependencies (removeDependencyStore st s r.id) r.id = 0
  · by_cases hty : r.type = "SERVER"
    · rw [if_neg (by simp [hty]), if_pos hc, if_pos hty]
      exact ⟨removeDependencyStore_repos st s r.id, rfl⟩
    · rw [if_pos ⟨hc, hty⟩, if_pos hc, if_neg hty]
      refine ⟨?_, rfl⟩
      show findRepoL
        (updateL (removeDependencyStore st s r.id).repos r.id "UNTRACKED")
        r.id = _
      rw [findRepoL_updateL]
      rw [show findRepoL (removeDependencyStore st s r.id).repos r.id = some r
        from h]
      rfl
  · rw [if_neg (by tauto), if_neg hc]
    exact ⟨removeDependencyStore_repos st s r.id, rfl⟩

/-- Witness for C3: removing the only edge onto an `INDEXED` WEB
repository reverts it to `UNTRACKED` and broadcasts the update. -/
theorem deleteDependencyOp_orphan_witness :
    findRepo (deleteDependencyOp stWebIndexed 2 1).st 1 =
      some { repoWebIndexed with status := "UNTRACKED" } ∧
    (deleteDependencyOp stWebIndexed 2 1).trace =
      [Ev.setStatus 1 "UNTRACKED", Ev.repoUpdated 1 "UNTRACKED"] := by
  have h := deleteDependencyOp_orphan stWebIndexed 2 1 repoWebIndexed rfl
  have hcond :
      countIncomingDependencies (removeDependencyStore stWebIndexed 2 1) 1 =
        0 ∧ repoWebIndexed.type ≠ "SERVER" := by decide
  rw [if_pos hcond] at h
  exact h

/-- C4: in every state reachable through the orchestrator's operations
(creation, dependency addition, dependency removal, indexing outcome
application) starting from the empty state, no repository of type
`SERVER` has status `UNTRACKED`. -/
theorem server_repo_never_untracked (st : St)
    (h : Relation.ReflTransGen Step init st) :
    serverNeverUntracked st = true :=
  (Inv_reachable st h).2

/-- Witness for C4: the state after creating a `SERVER` repository and
applying a failed indexing outcome to it satisfies the invariant. -/
theorem server_repo_never_untracked_witness :
    serverNeverUntracked
      (applyOutcome (addRepoOp init 7 1 "api" "https://example.com/a.git"
        "SERVER").2.st 1 false).1 = true :=
  server_repo_never_untracked _
    (Relation.ReflTransGen.tail
      (Relation.ReflTransGen.single
        (Step.create init 7 1 "api" "https://example.com/a.git" "SERVER" rfl))
      (Step.outcome _ 1 false))

/-- C8: within one triggering event that launches an indexing submission
for a repository R — the creation of a SERVER repository, or a dependency
addition onto an `UNTRACKED` target — the full event trace is: R's local
status transition applied and broadcast (the `PENDING` creation record
with its `repository:added` emission, resp. the `UNTRACKED` to `PENDING`
write with its `repository:updated` emission), then the start of the
indexing submission, then its resolution, and only then the terminal
`INDEXED`/`FAILED` write and its broadcast.  (The other triggering
events — non-SERVER creation, dependency addition onto a tracked target,
dependency removal — launch no submission, so the ordering is vacuous
there.) -/
theorem triggering_event_ordering (st : St) (pid newId : Nat)
    (name url : String) (okA : Bool) (st2 : St) (s t : Nat) (okB : Bool)
    (r : Repo) (h : findRepo (addDependencyStore st2 s t) t = some r)
    (hu : r.status = "UNTRACKED") :
    (runEvent (addRepoOp st pid newId name url "SERVER").2 okA).2 =
      [Ev.repoAdded pid newId] ++
      [Ev.submitStart ⟨pid, url, newId⟩, Ev.submitResolve newId okA] ++
      [Ev.setStatus newId (if okA then "INDEXED" else "FAILED"),
        Ev.repoUpdated newId (if okA then "INDEXED" else "FAILED")] ∧
    (runEvent (createDependencyOp st2 s t) okB).2 =
      [Ev.setStatus r.id "PENDING", Ev.repoUpdated r.id "PENDING"] ++
      [Ev.submitStart ⟨r.projectId, r.url, r.id⟩,
        Ev.submitResolve r.id okB] ++
      [Ev.setStatus r.id (if okB then "INDEXED" else "FAILED"),
        Ev.repoUpdated r.id (if okB then "INDEXED" else "FAILED")] := by
  constructor
  · simp [addRepoOp, runEvent, applyOutcome]
  · simp only [createDependencyOp, h, if_pos hu, runEvent, applyOutcome]

/-- Witness for C8 at concrete inputs: a SERVER creation whose submission
succeeds, and a dependency addition onto an `UNTRACKED` target whose
submission fails. -/
theorem triggering_event_ordering_witness :
    (runEvent (addRepoOp init 7 1 "api" "https://a.git" "SERVER").2
        true).2 =
      [Ev.repoAdded 7 1] ++
      [Ev.submitStart ⟨7, "https://a.git", 1⟩, Ev.submitResolve 1 true] ++
      [Ev.setStatus 1 (if true then "INDEXED" else "FAILED"),
        Ev.repoUpdated 1 (if true then "INDEXED" else "FAILED")] ∧
    (runEvent (createDependencyOp stWebUntracked 2 1) false).2 =
      [Ev.setStatus 1 "PENDING", Ev.repoUpdated 1 "PENDING"] ++
      [Ev.submitStart ⟨10, "https://w.git", 1⟩,
        Ev.submitResolve 1 false] ++
      [Ev.setStatus 1 (if false then "INDEXED" else "FAILED"),
        Ev.repoUpdated 1 (if false then "INDEXED" else "FAILED")] :=
  triggering_event_ordering init 7 1 "api" "https://a.git" true
    stWebUntracked 2 1 false repoWebUntracked rfl rfl

end SyncrupServer
